import Mathlib

/-!
Shallow embedding of the `asyncify` task-group / task-loop core
(`src/asyncify/group.py` and `src/asyncify/loop.py`) and proofs of the
specification claims about it.

Conventions of the embedding:
* Python exceptions become the inductive `PyExc`; raising code returns
  `Except PyExc _` (for `TaskLoop` attribute code, `Except (PyExc × TLoop) _`
  so that the object state at raise time is preserved, as in Python).
* An `asyncio.Task` handle is an index into a task store `List PyTask`;
  `create_task` allocates a fresh index.  A task settles at most once; its
  done callback fires exactly when it settles.  `Task.result()` raises
  `InvalidStateError` while unsettled, `CancelledError` once it settled
  after a cancellation request, and otherwise returns its value or raises
  the exception produced by the coroutine.
* The class hierarchy fact used by `get_results` is Python >= 3.8 semantics:
  `asyncio.CancelledError` derives from `BaseException`, not `Exception`.
* Times are modelled as natural numbers of seconds on a discrete clock.
-/

/-- Python exception values relevant to the embedded code. -/
inductive PyExc where
  | valueError (msg : String)
  | typeError (msg : String)
  | runtimeError (msg : String)
  | attributeError (attr : String)
  | invalidStateError
  | cancelledError
  | timeoutError
  | recursionError
deriving DecidableEq, Repr

/-- Whether the exception class derives from `Exception` (as opposed to only
`BaseException`).  On Python >= 3.8, `asyncio.CancelledError` derives from
`BaseException` only, so `except Exception` does not catch it. -/
def PyExc.isException : PyExc → Bool
  | .cancelledError => false
  | _ => true

/-- The result a coroutine submitted to a `TaskGroup` would produce if it ran
to completion: a (numeric) value, or an exception it raises. -/
inductive Outcome where
  | value (v : Nat)
  | error (e : PyExc)
deriving DecidableEq, Repr

/-- An `asyncio.Task`: the eventual outcome of the coroutine, whether cancellation
was requested before it settled, and whether it has settled.  `tid` records
the `task_id` captured by the `add_to_finished` closure in
`TaskGroup.create_task`. -/
structure PyTask where
  tid : Nat
  outcome : Outcome
  cancelled : Bool
  settled : Bool
deriving DecidableEq, Repr

/-- Placeholder task used for out-of-range handle lookups (never reached in
the executions the theorems talk about). -/
def defaultTask : PyTask := ⟨0, .value 0, false, false⟩

/-- `asyncio.Task.result()`: `InvalidStateError` if not yet settled,
`CancelledError` if it settled via cancellation, otherwise the value or
exception of the coroutine. -/
def taskResult (tasks : List PyTask) (hdl : Nat) : Except PyExc Nat :=
  let t := tasks.getD hdl defaultTask
  if !t.settled then .error .invalidStateError
  else if t.cancelled then .error .cancelledError
  else
    match t.outcome with
    | .value v => .ok v
    | .error e => .error e

/-- The `_States` enum of `group.py`. -/
inductive GState where
  | NOT_STARTED
  | RUNNING
  | FINISHED
  | TIMEOUTED
deriving DecidableEq, Repr

/-- The mutable state of a `TaskGroup` together with its task store.
`unscheduled`, `pending`, `finished` and `state` mirror `_unscheduled`,
`_pending_tasks`, `_finished_tasks` and `_state`; pairs are
`(task_id, handle)`. -/
structure TGroup where
  unscheduled : List Outcome
  pending : List (Nat × Nat)
  finished : List (Nat × Nat)
  state : GState
  tasks : List PyTask
deriving DecidableEq, Repr

/-- `TaskGroup.__init__` (without a `timeout_in`; the timer callback is the
`timerFire` event below). -/
def TGroup.initial : TGroup := ⟨[], [], [], .NOT_STARTED, []⟩

/-- `TaskGroup.all_tasks`: `pending + finished`. -/
def TGroup.allTasks (g : TGroup) : List (Nat × Nat) := g.pending ++ g.finished

/-- `TaskGroup.create_task`.  While `NOT_STARTED` the coroutine is buffered;
once `FINISHED` it raises; otherwise a fresh task is scheduled with
`task_id = len(self.all_tasks)` and appended to `pending`, returning the
handle. -/
def TGroup.create_task (g : TGroup) (coro : Outcome) : Except PyExc (TGroup × Option Nat) :=
  match g.state with
  | .NOT_STARTED => .ok ({ g with unscheduled := g.unscheduled ++ [coro] }, none)
  | .FINISHED => .error (.runtimeError "TaskGroup has already finished.")
  | _ =>
    let tid := g.allTasks.length
    let hdl := g.tasks.length
    .ok ({ g with
            tasks := g.tasks ++ [⟨tid, coro, false, false⟩],
            pending := g.pending ++ [(tid, hdl)] },
         some hdl)

/-- One task settles, and its `add_to_finished` done callback fires: the
captured `(task_id, task)` pair is removed from `pending` if present (the
`ValueError` from a failed `remove` is absorbed), then unconditionally
appended to `finished`.  A task settles only once. -/
def TGroup.completeTask (g : TGroup) (hdl : Nat) : TGroup :=
  let t := g.tasks.getD hdl defaultTask
  if t.settled then g
  else
    { g with
      tasks := g.tasks.set hdl { t with settled := true },
      pending := g.pending.erase (t.tid, hdl),
      finished := g.finished ++ [(t.tid, hdl)] }

/-- `TaskGroup.cancel_all_tasks`: request cancellation of every not-yet-done
pending task, then move the whole `pending` list onto the end of `finished`
and clear `pending`. -/
def TGroup.cancel_all_tasks (g : TGroup) : TGroup :=
  let tasks := g.pending.foldl
    (fun ts p =>
      let t := ts.getD p.2 defaultTask
      if t.settled then ts else ts.set p.2 { t with cancelled := true })
    g.tasks
  { g with tasks := tasks, finished := g.finished ++ g.pending, pending := [] }

/-- `TaskGroup.__raise_timeout` (the `call_later` callback): unless already
`FINISHED`, flip the state to `TIMEOUTED` and cancel everything pending. -/
def TGroup.raiseTimeout (g : TGroup) : TGroup :=
  if g.state = .FINISHED then g
  else TGroup.cancel_all_tasks { g with state := .TIMEOUTED }

/-- One step of the flush loop in `TaskGroup.__aenter__`: `create_task` on a
buffered coroutine, keeping the group state. -/
def TGroup.scheduleOne (acc : TGroup) (coro : Outcome) : Except PyExc TGroup := do
  let r ← acc.create_task coro
  pure r.1

/-- `TaskGroup.__aenter__`: set the state to `RUNNING` and flush every
buffered coroutine through `create_task` (the buffer itself is not cleared
by the source). -/
def TGroup.aenter (g : TGroup) : Except PyExc TGroup :=
  let g1 := { g with state := .RUNNING }
  g1.unscheduled.foldlM TGroup.scheduleOne g1

/-- The body of the reconciliation loop in `TaskGroup.__aexit__`, for one
element `task` of `done`: if the pair is still in `pending` move it to
`finished`; then `task.result()` — a `CancelledError` is caught and turned
into `asyncio.TimeoutError` exactly when the state is `TIMEOUTED`, any other
exception propagates out of `__aexit__` uncaught. -/
def resultCheckOutcome (g1 : TGroup) (r : Except PyExc Nat) : Except PyExc TGroup :=
  match r with
  | .ok _ => .ok g1
  | .error .cancelledError =>
      if g1.state = .TIMEOUTED then .error .timeoutError else .ok g1
  | .error e => .error e

/-- The reconciliation (`remove`/`append` when still pending) followed by the
`task.result()` try/except, for one element of `done`. -/
def resultCheckStep (g : TGroup) (p : Nat × Nat) : Except PyExc TGroup :=
  let g1 :=
    if p ∈ g.pending then
      { g with pending := g.pending.erase p, finished := g.finished ++ [p] }
    else g
  resultCheckOutcome g1 (taskResult g1.tasks p.2)

/-- `TaskGroup.__aexit__`, driven by a completion environment: if `pending`
is empty it returns; otherwise it snapshots the pending pairs and awaits
`asyncio.wait` on them.  During that await, if the timer of the group is due on
this round (`timerAt = some round`) the `__raise_timeout` callback fires
first; then every snapshotted task settles and its done callback runs
(done callbacks are registered before the internal callback of `asyncio.wait`,
so they run before the coroutine resumes).  On resume the reconciliation loop
runs over `done` and the method recurses.  `fuel` bounds the recursion as
the Python recursion limit does. -/
def aexitGo : Nat → Option Nat → Nat → TGroup → Except PyExc TGroup
  | 0, _, _, _ => .error .recursionError
  | fuel + 1, timerAt, round, g =>
    if g.pending = [] then .ok g
    else
      let snapshot := g.pending
      let g1 := if timerAt = some round then g.raiseTimeout else g
      let g2 := snapshot.foldl (fun acc p => acc.completeTask p.2) g1
      match snapshot.foldlM resultCheckStep g2 with
      | .error e => .error e
      | .ok g3 => aexitGo fuel timerAt (round + 1) g3

/-- `TaskGroup.__aexit__` with the standard fuel. -/
def TGroup.aexit (g : TGroup) (timerAt : Option Nat) : Except PyExc TGroup :=
  aexitGo 5 timerAt 0 g

/-- A value yielded by the `get_results` generator: the value of a task, or the
exception object itself when `return_exceptions=True`. -/
inductive PyVal where
  | val (v : Nat)
  | exc (e : PyExc)
deriving DecidableEq, Repr

/-- The loop of `TaskGroup.get_results` over `_finished_tasks`.  The result
is the list of pairs the generator yields together with the exception, if
any, that terminates the iteration: `task.result()` raising
`InvalidStateError` is rephrased as a `RuntimeError`; an `Exception`
subclass is yielded as data when `return_exceptions` and re-raised
otherwise; anything else (`CancelledError`) is caught by neither `except`
clause and propagates. -/
def getResultsGo (tasks : List PyTask) (return_exceptions : Bool) :
    List (Nat × Nat) → List (Nat × PyVal) × Option PyExc
  | [] => ([], none)
  | p :: rest =>
    match taskResult tasks p.2 with
    | .ok v =>
        let r := getResultsGo tasks return_exceptions rest
        ((p.1, .val v) :: r.1, r.2)
    | .error .invalidStateError =>
        ([], some (.runtimeError "TaskGroup results fetched before tasks are finished."))
    | .error e =>
        if e.isException then
          if return_exceptions then
            let r := getResultsGo tasks return_exceptions rest
            ((p.1, .exc e) :: r.1, r.2)
          else ([], some e)
        else ([], some e)

/-- `TaskGroup.get_results`: raises `RuntimeError` unless the state is
`FINISHED`, otherwise iterates `_finished_tasks`. -/
def TGroup.get_results (g : TGroup) (return_exceptions : Bool) :
    List (Nat × PyVal) × Option PyExc :=
  if g.state ≠ .FINISHED then
    ([], some (.runtimeError "TaskGroup is not finished yet."))
  else getResultsGo g.tasks return_exceptions g.finished

/-- The events of a `TaskGroup` execution, each an atomic step on the single
cooperative scheduler thread. -/
inductive GEvent where
  | enter
  | submit (coro : Outcome)
  | complete (hdl : Nat)
  | timerFire
  | cancelAll
  | exitScope (timerAt : Option Nat)
deriving DecidableEq, Repr

/-- Apply one event to the group state. -/
def applyEvent (g : TGroup) : GEvent → Except PyExc TGroup
  | .enter => g.aenter
  | .submit coro => (g.create_task coro).map (·.1)
  | .complete hdl => .ok (g.completeTask hdl)
  | .timerFire => .ok g.raiseTimeout
  | .cancelAll => .ok g.cancel_all_tasks
  | .exitScope timerAt => g.aexit timerAt

/-- Run a sequence of events from a fresh `TaskGroup`. -/
def runEvents (evts : List GEvent) : Except PyExc TGroup :=
  evts.foldlM applyEvent TGroup.initial

/-!  The `TaskLoop` attribute model (`loop.py`).

The three backing attributes of a `TaskLoop` object, `_hours`/`_minutes`/`_seconds`
are `Option Int`: the class body only annotates them, so reading one before
its first assignment raises `AttributeError`.  Raising code returns
`Except (PyExc × TLoop) TLoop`, the error carrying the object state at raise
time (a Python exception does not roll attribute mutations back). -/

/-- The attribute state of a `TaskLoop` instance. -/
structure TLoop where
  _hours : Option Int
  _minutes : Option Int
  _seconds : Option Int
deriving DecidableEq, Repr

/-- Read an attribute, raising `AttributeError` when it was never assigned. -/
def TLoop.getattr (l : TLoop) (v : Option Int) (attr : String) :
    Except (PyExc × TLoop) Int :=
  match v with
  | none => .error (.attributeError attr, l)
  | some x => .ok x

/-- `setattr(self, name, old)` for the three backing attribute names. -/
def TLoop.setattrName (l : TLoop) (name : String) (x : Int) : TLoop :=
  if name = "_hours" then { l with _hours := some x }
  else if name = "_minutes" then { l with _minutes := some x }
  else if name = "_seconds" then { l with _seconds := some x }
  else l

/-- `TaskLoop.total_seconds`: `hours*3600 + minutes*60 + seconds*1`, reading
each property (so it raises `AttributeError` on an unassigned attribute). -/
def TLoop.total_seconds (l : TLoop) : Except (PyExc × TLoop) Int := do
  let h ← l.getattr l._hours "_hours"
  let m ← l.getattr l._minutes "_minutes"
  let s ← l.getattr l._seconds "_seconds"
  pure (h * 3600 + m * 60 + s * 1)

/-- `TaskLoop._assert_time(old, name)`: if `self.total_seconds <= 0`, restore
`old` into the attribute called `name` and raise `ValueError`. -/
def TLoop._assert_time (l : TLoop) (old : Int) (name : String) :
    Except (PyExc × TLoop) TLoop := do
  let t ← l.total_seconds
  if t ≤ 0 then
    .error (.valueError "The total interval must be greater than 0.", l.setattrName name old)
  else
    .ok l

/-- The `hours` property setter: evaluate the argument `self._hours` (this is
the read that raises `AttributeError` on a fresh object), run
`_assert_time`, then assign. -/
def TLoop.hoursSet (l : TLoop) (new : Int) : Except (PyExc × TLoop) TLoop := do
  let old ← l.getattr l._hours "_hours"
  let l1 ← l._assert_time old "_hours"
  pure { l1 with _hours := some new }

/-- The `minutes` property setter.  The source passes `self._hours` (not
`self._minutes`) as the value to restore. -/
def TLoop.minutesSet (l : TLoop) (new : Int) : Except (PyExc × TLoop) TLoop := do
  let old ← l.getattr l._hours "_hours"
  let l1 ← l._assert_time old "_minutes"
  pure { l1 with _minutes := some new }

/-- The `seconds` property setter.  The source passes `self._hours` (not
`self._seconds`) as the value to restore. -/
def TLoop.secondsSet (l : TLoop) (new : Int) : Except (PyExc × TLoop) TLoop := do
  let old ← l.getattr l._hours "_hours"
  let l1 ← l._assert_time old "_seconds"
  pure { l1 with _seconds := some new }

/-- `TaskLoop.__new__`: assign `hours`, `minutes`, `seconds` (from the
keyword arguments, default 0) through the property setters, on an object
whose backing attributes have never been assigned. -/
def TaskLoop_new (hours minutes seconds : Int) : Except (PyExc × TLoop) TLoop := do
  let l : TLoop := ⟨none, none, none⟩
  let l1 ← l.hoursSet hours
  let l2 ← l1.minutesSet minutes
  let l3 ← l2.secondsSet seconds
  pure l3

/-- `TaskLoop.change_interval`: read the three properties into `old_*`,
assign the three backing attributes directly, and if the new total is not
positive, restore the old configuration by a recursive call whenever
`old_hours + old_minutes + old_seconds > 0` (note: the plain sum, not the
derived total), then raise `ValueError`.  `fuel` bounds the recursion as
the Python recursion limit does. -/
def TLoop.change_interval : Nat → TLoop → Int → Int → Int → Except (PyExc × TLoop) TLoop
  | 0, l, _, _, _ => .error (.recursionError, l)
  | fuel + 1, l, hours, minutes, seconds => do
    let old_hours ← l.getattr l._hours "_hours"
    let old_minutes ← l.getattr l._minutes "_minutes"
    let old_seconds ← l.getattr l._seconds "_seconds"
    let l1 : TLoop := ⟨some hours, some minutes, some seconds⟩
    let t ← l1.total_seconds
    if t ≤ 0 then
      if old_hours + old_minutes + old_seconds > 0 then
        match TLoop.change_interval fuel l1 old_hours old_minutes old_seconds with
        | .error r => .error r
        | .ok l2 => .error (.valueError "The total seconds need to be greater than 0.", l2)
      else
        .error (.valueError "The total seconds need to be greater than 0.", l1)
    else
      .ok l1

/-- `TaskLoop.__init__` (the part relevant to the duration fields): calls
`change_interval` with the constructor arguments. -/
def TaskLoop_init (l : TLoop) (hours minutes seconds : Int) :
    Except (PyExc × TLoop) TLoop :=
  TLoop.change_interval 8 l hours minutes seconds

/-- Constructing `TaskLoop(callback, hours=h, minutes=m, seconds=s)`:
`__new__` runs first, then (only if it returned) `__init__`. -/
def TaskLoop_construct (hours minutes seconds : Int) : Except (PyExc × TLoop) TLoop := do
  let l ← TaskLoop_new hours minutes seconds
  TaskLoop_init l hours minutes seconds

/-- The `task_loop(hours=, minutes=, seconds=)` decorator applied to a
coroutine function: its `isinstance` int check passes for integers, so it
just constructs `TaskLoop(func, hours=..., minutes=..., seconds=...)`. -/
def task_loop_apply (hours minutes seconds : Int) : Except (PyExc × TLoop) TLoop :=
  TaskLoop_construct hours minutes seconds

/-!  The `TaskLoop._start_task` run-loop model.

The loop body does, per iteration:
`self._coro_task = loop.create_task(self.callback(*args, **kwargs))`;
`self._iteration += 1`; `self._last_iteration = datetime.datetime.now()`;
`await asyncio.sleep(self.total_seconds)`.  The callback thus runs in its
own spawned task: the body never awaits it.  A spawned callback invocation
begins at its spawn time (the body suspends right after spawning) and, if
the callback takes `dur` seconds, returns at `spawnTime + dur`; if the
callback raises, the exception is stored in the spawned task. -/

/-- A task spawned by `loop.create_task(self.callback(...))` inside
`_start_task`: when it was spawned and whether the callback raises when
run. -/
structure SpawnedTask where
  spawnTime : Nat
  raisesWhenRun : Bool
deriving DecidableEq, Repr

/-- The state of one execution of `TaskLoop._start_task`. -/
structure LoopState where
  now : Nat
  _iteration : Nat
  _last_iteration : Option Nat
  _coro_task : Option Nat
  spawned : List SpawnedTask
  beforeRan : Bool
  afterRan : Bool
deriving DecidableEq, Repr

/-- One pass of the `while True` body of `_start_task`: spawn the callback
task (recording whether this invocation raises), bump `_iteration`, record
`_last_iteration`, then `await asyncio.sleep(self.total_seconds)` advances
the clock by the interval. -/
def whileBody (raisesAt : Nat → Bool) (interval : Nat) (st : LoopState) : LoopState :=
  let idx := st.spawned.length
  { st with
    _coro_task := some idx,
    spawned := st.spawned ++ [⟨st.now, raisesAt idx⟩],
    _iteration := st._iteration + 1,
    _last_iteration := some st.now,
    now := st.now + interval }

/-- `n` passes of the `while True` body. -/
def loopIter (raisesAt : Nat → Bool) (interval : Nat) : Nat → LoopState → LoopState
  | 0, st => st
  | n + 1, st => loopIter raisesAt interval n (whileBody raisesAt interval st)

/-- The state of `_start_task` after the `before_loop` hook (run iff
registered). -/
def initLoopState (hasBefore : Bool) : LoopState :=
  ⟨0, 0, none, none, [], hasBefore, false⟩

/-- `TaskLoop._start_task` observed after `steps` iterations: runs the
`before_loop` hook, then `steps` passes of the body.  The `while True` loop
has no normal exit; it is left only when an exception (cancellation of the
loop task) interrupts it, and then the `finally` clause runs the
`after_loop` hook — `cancelAfter` selects that exit. -/
def startTaskRun (hasBefore hasAfter : Bool) (raisesAt : Nat → Bool)
    (interval steps : Nat) (cancelAfter : Bool) : LoopState :=
  let st := loopIter raisesAt interval steps (initLoopState hasBefore)
  if cancelAfter then { st with afterRan := hasAfter } else st

/-- Whether callback invocation `i + 1` begins before invocation `i` has
returned, when invocation `i` takes `dur i` seconds: invocations begin at
their spawn times. -/
def invocationOverlap (st : LoopState) (dur : Nat → Nat) (i : Nat) : Bool :=
  match st.spawned.get? i, st.spawned.get? (i + 1) with
  | some a, some b => decide (b.spawnTime < a.spawnTime + dur i)
  | _, _ => false

/-!  Helper definitions for stating properties of `get_results`. -/

/-- Whether `task.result()` for the handle of entry `p` returns normally. -/
def taskOk (tasks : List PyTask) (p : Nat × Nat) : Bool :=
  match taskResult tasks p.2 with
  | .ok _ => true
  | .error _ => false

/-- The pair the `get_results` generator yields for entry `p` when it does
yield: the value of the task, or (under `return_exceptions=True`) the exception
object itself. -/
def entryYield (tasks : List PyTask) (p : Nat × Nat) : Nat × PyVal :=
  (p.1, match taskResult tasks p.2 with
        | .ok v => .val v
        | .error e => .exc e)

/-!  Theorems for the claims. -/

/-- Claim C2: constructing a `TaskLoop` — directly or through the `task_loop`
decorator — never succeeds: `__new__` assigns `hours` through its property
setter, whose first action reads the never-assigned backing attribute
`_hours`, so every construction raises `AttributeError` before `__init__`
runs, whatever duration arguments are passed. -/
theorem claim_c2_construction_always_raises
    (hours minutes seconds : Int) :
    TaskLoop_construct hours minutes seconds
      = .error (.attributeError "_hours", ⟨none, none, none⟩)
    ∧ task_loop_apply hours minutes seconds
      = .error (.attributeError "_hours", ⟨none, none, none⟩) :=
  ⟨rfl, rfl⟩

/-- Claim C3 fails on the code (the claim itself is what the docstring of the source
promises): for `N = 1` submitted item, after the scope runs (here with
`cancel_all_tasks` followed by the own completion callback of the task), the
bookkeeping holds *two* entries for `sequence_id` 0, and `get_results`
yields no entries at all — it raises `RuntimeError` because `_state` is
never assigned `FINISHED`. -/
theorem claim_c3_results_do_not_yield_n_entries :
    runEvents [.enter, .submit (.value 5), .cancelAll, .complete 0, .exitScope none]
      = .ok ⟨[], [], [(0, 0), (0, 0)], .RUNNING, [⟨0, .value 5, true, true⟩]⟩
    ∧ TGroup.get_results
        ⟨[], [], [(0, 0), (0, 0)], .RUNNING, [⟨0, .value 5, true, true⟩]⟩ true
      = ([], some (.runtimeError "TaskGroup is not finished yet.")) :=
  ⟨rfl, rfl⟩

/-- Claim C4 fails on the code: after `cancel_all_tasks` has reclassified the
two pending tasks as finished, the completion callback of each task fires
later and — after absorbing the failed `remove` from `pending` — still
appends its `(sequence_id, handle)` pair to `finished` a second time, so the
pair `(0, 0)` occurs twice in the finished collection. -/
theorem claim_c4_duplicate_finish_not_absorbed :
    runEvents
        [.enter, .submit (.value 1), .submit (.value 2), .cancelAll,
         .complete 0, .complete 1]
      = .ok ⟨[], [], [(0, 0), (1, 1), (0, 0), (1, 1)], .RUNNING,
             [⟨0, .value 1, true, true⟩, ⟨1, .value 2, true, true⟩]⟩
    ∧ ([(0, 0), (1, 1), (0, 0), (1, 1)] : List (Nat × Nat)).count (0, 0) = 2 :=
  ⟨rfl, by decide⟩

/-- Claim C5 fails on the code: with a one-second interval and a callback that
takes two seconds, the second callback invocation (spawned at time 1) begins
before the first (running over `[0, 2)`) has returned — `_start_task` spawns
the callback with `create_task` and sleeps for the interval without awaiting
it, so invocations overlap. -/
theorem claim_c5_invocations_can_overlap :
    invocationOverlap (startTaskRun false false (fun _ => false) 1 2 false)
      (fun _ => 2) 0 = true :=
  rfl

/-- Claim C6 fails on the code: a callback that raises during iteration 0 does
not stop the loop — the exception is stored in the spawned task (which the
run-loop body never awaits), two further iterations still run, and
`after_loop` is not invoked; `after_loop` runs only when the loop task
itself is cancelled. -/
theorem claim_c6_callback_exception_does_not_stop_loop :
    (startTaskRun false true (fun i => i == 0) 1 3 false)._iteration = 3
    ∧ (startTaskRun false true (fun i => i == 0) 1 3 false).afterRan = false
    ∧ (startTaskRun false true (fun i => i == 0) 1 3 false).spawned.getD 0 ⟨0, false⟩
        = ⟨0, true⟩
    ∧ (startTaskRun false true (fun i => i == 0) 1 3 true).afterRan = true :=
  ⟨rfl, rfl, rfl, rfl⟩

/-- Claim C7 fails as stated: here the deadline fires while the group is
`RUNNING` and its one item is unsettled (after `[.enter, .submit _]` the
state is `RUNNING` with `(0, 0)` pending), every pending item is indeed
cancelled and the state flips to `TIMEOUTED` — but because this happens
*before* `__aexit__` begins, `pending` is already empty at scope exit, so
`__aexit__` returns normally instead of raising `asyncio.TimeoutError`. -/
theorem claim_c7_timeout_before_exit_raises_nothing :
    runEvents [.enter, .submit (.value 1)]
      = .ok ⟨[], [(0, 0)], [], .RUNNING, [⟨0, .value 1, false, false⟩]⟩
    ∧ runEvents [.enter, .submit (.value 1), .timerFire, .complete 0, .exitScope none]
      = .ok ⟨[], [], [(0, 0), (0, 0)], .TIMEOUTED, [⟨0, .value 1, true, true⟩]⟩ :=
  ⟨rfl, rfl⟩

/-- Claim C7 amended: when the deadline fires while the group is `RUNNING`,
the state flips to `TIMEOUTED` and every pending item is cancelled and
reclassified as finished; scope exit raises the timeout-signaling
`asyncio.TimeoutError` when the deadline fires while `__aexit__` is waiting
on pending items, but when it fires before `__aexit__` begins, `pending` is
already empty at scope exit and `__aexit__` returns without raising.  This
holds for every submitted coroutine outcome. -/
theorem claim_c7_amended_timeout_signal (coro : Outcome) :
    runEvents [.enter, .submit coro, .exitScope (some 0)] = .error .timeoutError
    ∧ runEvents [.enter, .submit coro, .timerFire]
        = .ok ⟨[], [], [(0, 0)], .TIMEOUTED, [⟨0, coro, true, false⟩]⟩
    ∧ runEvents [.enter, .submit coro, .timerFire, .complete 0, .exitScope none]
        = .ok ⟨[], [], [(0, 0), (0, 0)], .TIMEOUTED, [⟨0, coro, true, true⟩]⟩ :=
  ⟨rfl, rfl, rfl⟩

/-- Claim C8 fails on the code: the field setters validate *before* assigning
(`_assert_time` checks the current total, then the new value is stored
unconditionally), so on a valid configuration `(0, 0, 5)` the assignment
`seconds = 0` is accepted, leaving `total_seconds = 0` with no `ValueError`
and without preserving the prior value; and construction with
`hours=minutes=seconds=0` raises `AttributeError` (from `__new__`), not a
`ValueError`-class error. -/
theorem claim_c8_setter_accepts_nonpositive_total :
    TLoop.secondsSet ⟨some 0, some 0, some 5⟩ 0 = .ok ⟨some 0, some 0, some 0⟩
    ∧ TLoop.total_seconds ⟨some 0, some 0, some 0⟩ = .ok 0
    ∧ TaskLoop_construct 0 0 0
        = .error (.attributeError "_hours", ⟨none, none, none⟩) :=
  ⟨rfl, rfl, rfl⟩

/-!  State-machine facts feeding claim C1: no operation of `TaskGroup` ever
assigns the `FINISHED` state. -/

theorem create_task_state {g g' : TGroup} {c : Outcome} {h : Option Nat}
    (hok : g.create_task c = .ok (g', h)) : g'.state = g.state := by
  unfold TGroup.create_task at hok
  cases hg : g.state <;> rw [hg] at hok <;> simp at hok <;> rw [← hok.1]

theorem scheduleOne_state {g g' : TGroup} {c : Outcome}
    (hok : TGroup.scheduleOne g c = .ok g') : g'.state = g.state := by
  unfold TGroup.scheduleOne at hok
  cases hc : g.create_task c with
  | error e => rw [hc] at hok; simp [Bind.bind, Except.bind] at hok
  | ok r =>
    rw [hc] at hok
    simp [Bind.bind, Except.bind, Pure.pure, Except.pure] at hok
    subst hok
    exact create_task_state hc

theorem foldlM_scheduleOne_state :
    ∀ (l : List Outcome) (g g' : TGroup),
      l.foldlM TGroup.scheduleOne g = .ok g' → g'.state = g.state := by
  intro l
  induction l with
  | nil =>
    intro g g' hok
    simp [List.foldlM, Pure.pure, Except.pure] at hok
    subst hok; rfl
  | cons c rest ih =>
    intro g g' hok
    simp only [List.foldlM] at hok
    cases hc : TGroup.scheduleOne g c with
    | error e => rw [hc] at hok; simp [Bind.bind, Except.bind] at hok
    | ok g1 =>
      rw [hc] at hok
      simp only [Bind.bind, Except.bind] at hok
      rw [ih g1 g' hok, scheduleOne_state hc]

theorem aenter_state {g g' : TGroup} (hok : g.aenter = .ok g') :
    g'.state = .RUNNING := by
  unfold TGroup.aenter at hok
  exact foldlM_scheduleOne_state _ _ _ hok

theorem completeTask_state (g : TGroup) (hdl : Nat) :
    (g.completeTask hdl).state = g.state := by
  unfold TGroup.completeTask
  dsimp only
  split <;> rfl

theorem foldl_completeTask_state :
    ∀ (l : List (Nat × Nat)) (g : TGroup),
      (l.foldl (fun acc p => acc.completeTask p.2) g).state = g.state := by
  intro l
  induction l with
  | nil => intro g; rfl
  | cons p rest ih =>
    intro g
    simp only [List.foldl]
    rw [ih, completeTask_state]

theorem cancel_all_tasks_state (g : TGroup) :
    (g.cancel_all_tasks).state = g.state := rfl

theorem raiseTimeout_state {g : TGroup} (h : g.state ≠ .FINISHED) :
    (g.raiseTimeout).state ≠ .FINISHED := by
  unfold TGroup.raiseTimeout
  rw [if_neg h]
  rw [cancel_all_tasks_state]
  intro hc
  exact GState.noConfusion hc

theorem resultCheckOutcome_ok {g1 g' : TGroup} {r : Except PyExc Nat}
    (hok : resultCheckOutcome g1 r = .ok g') : g' = g1 := by
  unfold resultCheckOutcome at hok
  cases r with
  | ok v => injection hok with h; exact h.symm
  | error e =>
    cases e <;> simp at hok
    split at hok
    · exact Except.noConfusion hok
    · injection hok with h; exact h.symm

theorem resultCheckStep_state {g g' : TGroup} {p : Nat × Nat}
    (hok : resultCheckStep g p = .ok g') : g'.state = g.state := by
  unfold resultCheckStep at hok
  dsimp only at hok
  by_cases hp : p ∈ g.pending
  · rw [if_pos hp] at hok
    rw [resultCheckOutcome_ok hok]
  · rw [if_neg hp] at hok
    rw [resultCheckOutcome_ok hok]

theorem foldlM_resultCheckStep_state :
    ∀ (l : List (Nat × Nat)) (g g' : TGroup),
      l.foldlM resultCheckStep g = .ok g' → g'.state = g.state := by
  intro l
  induction l with
  | nil =>
    intro g g' hok
    simp [List.foldlM, Pure.pure, Except.pure] at hok
    subst hok; rfl
  | cons p rest ih =>
    intro g g' hok
    simp only [List.foldlM] at hok
    cases hc : resultCheckStep g p with
    | error e => rw [hc] at hok; simp [Bind.bind, Except.bind] at hok
    | ok g1 =>
      rw [hc] at hok
      simp only [Bind.bind, Except.bind] at hok
      rw [ih g1 g' hok, resultCheckStep_state hc]

theorem aexitGo_state :
    ∀ (fuel : Nat) (timerAt : Option Nat) (round : Nat) (g g' : TGroup),
      aexitGo fuel timerAt round g = .ok g' →
      g.state ≠ .FINISHED → g'.state ≠ .FINISHED := by
  intro fuel
  induction fuel with
  | zero =>
    intro tA r g g' hok
    simp [aexitGo] at hok
  | succ fuel ih =>
    intro tA r g g' hok hne
    simp only [aexitGo] at hok
    by_cases hp : g.pending = []
    · rw [if_pos hp] at hok
      injection hok with h
      rw [← h]; exact hne
    · rw [if_neg hp] at hok
      have hg1 : (if tA = some r then g.raiseTimeout else g).state ≠ .FINISHED := by
        split
        · exact raiseTimeout_state hne
        · exact hne
      have hg2 : ((g.pending).foldl (fun acc p => acc.completeTask p.2)
          (if tA = some r then g.raiseTimeout else g)).state ≠ .FINISHED := by
        rw [foldl_completeTask_state]; exact hg1
      cases hfold : (g.pending).foldlM resultCheckStep
          ((g.pending).foldl (fun acc p => acc.completeTask p.2)
            (if tA = some r then g.raiseTimeout else g)) with
      | error e => rw [hfold] at hok; exact Except.noConfusion hok
      | ok g3 =>
        rw [hfold] at hok
        have hg3 : g3.state ≠ .FINISHED := by
          rw [foldlM_resultCheckStep_state _ _ _ hfold]; exact hg2
        exact ih tA (r + 1) g3 g' hok hg3

theorem applyEvent_state {g g' : TGroup} {e : GEvent}
    (hok : applyEvent g e = .ok g') (hne : g.state ≠ .FINISHED) :
    g'.state ≠ .FINISHED := by
  cases e with
  | enter =>
    simp only [applyEvent] at hok
    rw [aenter_state hok]
    intro hc; exact GState.noConfusion hc
  | submit coro =>
    simp only [applyEvent] at hok
    cases hc : g.create_task coro with
    | error e2 => rw [hc] at hok; exact Except.noConfusion hok
    | ok r =>
      obtain ⟨g2, h2⟩ := r
      rw [hc] at hok
      simp [Except.map] at hok
      rw [← hok, create_task_state hc]
      exact hne
  | complete hdl =>
    simp only [applyEvent] at hok
    injection hok with h
    rw [← h, completeTask_state]; exact hne
  | timerFire =>
    simp only [applyEvent] at hok
    injection hok with h
    rw [← h]; exact raiseTimeout_state hne
  | cancelAll =>
    simp only [applyEvent] at hok
    injection hok with h
    rw [← h, cancel_all_tasks_state]; exact hne
  | exitScope tA =>
    simp only [applyEvent, TGroup.aexit] at hok
    exact aexitGo_state 5 tA 0 g g' hok hne

theorem runEvents_state :
    ∀ (evts : List GEvent) (g : TGroup),
      runEvents evts = .ok g → g.state ≠ .FINISHED := by
  have main : ∀ (evts : List GEvent) (g0 g : TGroup),
      evts.foldlM applyEvent g0 = .ok g → g0.state ≠ .FINISHED →
      g.state ≠ .FINISHED := by
    intro evts
    induction evts with
    | nil =>
      intro g0 g hok hne
      simp [List.foldlM, Pure.pure, Except.pure] at hok
      rw [← hok]; exact hne
    | cons e rest ih =>
      intro g0 g hok hne
      simp only [List.foldlM] at hok
      cases he : applyEvent g0 e with
      | error e2 => rw [he] at hok; simp [Bind.bind, Except.bind] at hok
      | ok g1 =>
        rw [he] at hok
        simp only [Bind.bind, Except.bind] at hok
        exact ih g1 g hok (applyEvent_state he hne)
  intro evts g hok
  exact main evts TGroup.initial g hok (fun hc => GState.noConfusion hc)

/-- Claim C1 fails on the code: no operation of `TaskGroup` ever assigns the
`FINISHED` state — in particular a scope exit after all tracked work has
completed leaves the state `RUNNING` — so after *every* execution of the
group (any sequence of scope entry, submissions, completions, timer fires
and scope exits that does not itself raise), `get_results` fails with the
`InvalidState` error the `RuntimeError` saying the group is not finished yet,
contradicting the claimed `RUNNING → FINISHED` transition and the docstring example of the
source itself. -/
theorem claim_c1_state_never_finished_results_always_fail
    (evts : List GEvent) (g : TGroup) (b : Bool)
    (hok : runEvents evts = .ok g) :
    g.state ≠ .FINISHED
    ∧ g.get_results b = ([], some (.runtimeError "TaskGroup is not finished yet.")) := by
  have hne := runEvents_state evts g hok
  refine ⟨hne, ?_⟩
  unfold TGroup.get_results
  rw [if_pos hne]

/-- Witness for C1: a group that ran one task to completion inside its scope
and exited normally still refuses to produce results. -/
theorem claim_c1_witness :
    TGroup.state ⟨[], [], [(0, 0)], .RUNNING, [⟨0, .value 7, false, true⟩]⟩ ≠ .FINISHED
    ∧ TGroup.get_results ⟨[], [], [(0, 0)], .RUNNING, [⟨0, .value 7, false, true⟩]⟩ true
        = ([], some (.runtimeError "TaskGroup is not finished yet.")) :=
  claim_c1_state_never_finished_results_always_fail
    [.enter, .submit (.value 7), .complete 0, .exitScope none]
    ⟨[], [], [(0, 0)], .RUNNING, [⟨0, .value 7, false, true⟩]⟩ true rfl

/-!  Characterisation of the `_start_task` run loop, for claims C5 and C6. -/

theorem loopIter_spawned (r : Nat → Bool) (iv : Nat) :
    ∀ (n : Nat) (st : LoopState),
      (loopIter r iv n st).spawned
        = st.spawned ++ (List.range n).map
            (fun k => ⟨st.now + k * iv, r (st.spawned.length + k)⟩) := by
  intro n
  induction n with
  | zero => intro st; simp [loopIter]
  | succ n ih =>
    intro st
    simp only [loopIter]
    rw [ih]
    simp only [whileBody, List.append_assoc, List.singleton_append,
      List.length_append, List.length_cons, List.length_nil]
    refine congrArg (st.spawned ++ ·) ?_
    rw [List.range_succ_eq_map, List.map_cons, List.map_map]
    congr 1
    · simp
    · apply List.map_congr_left
      intro k _
      simp only [Function.comp]
      congr 1
      · rw [Nat.succ_mul]; ring
      · congr 1; omega

theorem loopIter_iteration (r : Nat → Bool) (iv : Nat) :
    ∀ (n : Nat) (st : LoopState),
      (loopIter r iv n st)._iteration = st._iteration + n := by
  intro n
  induction n with
  | zero => intro st; rfl
  | succ n ih =>
    intro st
    simp only [loopIter]
    rw [ih]
    simp only [whileBody]
    omega

theorem loopIter_afterRan (r : Nat → Bool) (iv : Nat) :
    ∀ (n : Nat) (st : LoopState),
      (loopIter r iv n st).afterRan = st.afterRan := by
  intro n
  induction n with
  | zero => intro st; rfl
  | succ n ih => intro st; simp only [loopIter]; rw [ih]; rfl

theorem startTaskRun_spawned (r : Nat → Bool) (hb ha c : Bool) (iv steps : Nat) :
    (startTaskRun hb ha r iv steps c).spawned
      = (List.range steps).map (fun k => ⟨k * iv, r k⟩) := by
  unfold startTaskRun
  have base := loopIter_spawned r iv steps (initLoopState hb)
  split <;> simp_all [initLoopState]

/-- Claim C5 amended: iterations of `_start_task` are spawned on a fixed
cadence: the `i`-th callback invocation begins exactly `i * interval` after
the loop body started, *independent of how long any callback invocation
runs* (the body never awaits the spawned callback task); consequently
consecutive invocations overlap precisely when the callback duration
exceeds the interval. -/
theorem claim_c5_amended_fixed_cadence_overlap_iff
    (r : Nat → Bool) (hb ha c : Bool) (iv steps : Nat) (dur : Nat → Nat) (i : Nat)
    (hi : i + 1 < steps) :
    (startTaskRun hb ha r iv steps c).spawned
      = (List.range steps).map (fun k => ⟨k * iv, r k⟩)
    ∧ invocationOverlap (startTaskRun hb ha r iv steps c) dur i
        = decide (iv < dur i) := by
  have hsp := startTaskRun_spawned r hb ha c iv steps
  refine ⟨hsp, ?_⟩
  unfold invocationOverlap
  rw [hsp]
  rw [List.get?_map, List.get?_map, List.get?_range (by omega : i < steps),
    List.get?_range hi]
  simp only [Option.map_some']
  have hiff : (i + 1) * iv < i * iv + dur i ↔ iv < dur i := by
    rw [Nat.succ_mul, Nat.add_lt_add_iff_left]
  simp [hiff]

/-- Witness for the amended C5, at `interval = 1`, two iterations, a
two-second callback. -/
theorem claim_c5_amended_witness :
    (startTaskRun false false (fun _ => false) 1 2 false).spawned
      = (List.range 2).map (fun k => ⟨k * 1, false⟩)
    ∧ invocationOverlap (startTaskRun false false (fun _ => false) 1 2 false)
        (fun _ => 2) 0 = decide (1 < 2) :=
  claim_c5_amended_fixed_cadence_overlap_iff
    (fun _ => false) false false false 1 2 (fun _ => 2) 0 (by decide)

/-- Claim C6 amended: an exception raised by the main callback is held in the
spawned per-iteration task and is invisible to the run-loop body: whatever
the raising pattern, the loop still performs every scheduled iteration and
`after_loop` does not run; `after_loop` runs (when registered) only on the
exit of the loop task itself, i.e. on cancellation, and the raised
exceptions stay recorded in the spawned tasks the loop never awaits. -/
theorem claim_c6_amended_loop_unaffected_by_callback_exceptions
    (r : Nat → Bool) (hb ha : Bool) (iv steps : Nat) :
    (startTaskRun hb ha r iv steps false)._iteration = steps
    ∧ (startTaskRun hb ha r iv steps false).afterRan = false
    ∧ (startTaskRun hb ha r iv steps true).afterRan = ha
    ∧ (startTaskRun hb ha r iv steps false).spawned.map SpawnedTask.raisesWhenRun
        = (List.range steps).map r := by
  refine ⟨?_, ?_, ?_, ?_⟩
  · unfold startTaskRun
    simp [loopIter_iteration, initLoopState]
  · unfold startTaskRun
    simp [loopIter_afterRan, initLoopState]
  · unfold startTaskRun
    simp
  · rw [startTaskRun_spawned]
    simp [List.map_map, Function.comp]

/-!  Behaviour of the `get_results` generator over the finished list, for
claims C9 and C10. -/

theorem getResultsGo_all_ok (tasks : List PyTask) (b : Bool) :
    ∀ (l : List (Nat × Nat)), (∀ p ∈ l, taskOk tasks p = true) →
      getResultsGo tasks b l = (l.map (entryYield tasks), none) := by
  intro l
  induction l with
  | nil => intro _; rfl
  | cons p rest ih =>
    intro hall
    have hp := hall p (List.mem_cons_self p rest)
    unfold taskOk at hp
    simp only [getResultsGo]
    cases htr : taskResult tasks p.2 with
    | error e => rw [htr] at hp; simp at hp
    | ok v =>
      simp [ih (fun q hq => hall q (List.mem_cons_of_mem p hq)), entryYield, htr]

theorem getResultsGo_append_ok (tasks : List PyTask) (b : Bool) :
    ∀ (pre rest : List (Nat × Nat)), (∀ p ∈ pre, taskOk tasks p = true) →
      getResultsGo tasks b (pre ++ rest)
        = (pre.map (entryYield tasks) ++ (getResultsGo tasks b rest).1,
           (getResultsGo tasks b rest).2) := by
  intro pre
  induction pre with
  | nil => intro rest _; simp
  | cons p pp ih =>
    intro rest hall
    have hp := hall p (List.mem_cons_self p pp)
    unfold taskOk at hp
    cases htr : taskResult tasks p.2 with
    | error e => rw [htr] at hp; simp at hp
    | ok v =>
      simp only [List.cons_append, getResultsGo, htr, List.append_eq]
      rw [ih rest (fun q hq => hall q (List.mem_cons_of_mem p hq))]
      simp [entryYield, htr]

/-- Claim C9: for a `TaskGroup` in the `FINISHED` state in which exactly one
finished entry raised an (ordinary) exception `E` and every other entry
completed normally: iterating `get_results` with `return_exceptions=True`
yields the exception object `E` itself at the position of that entry in
settlement order and terminates normally, while with
`return_exceptions=False` the iteration yields the successful entries
settled before it and then raises `E`, yielding none of the later
entries. -/
theorem claim_c9_error_item_results
    (g : TGroup) (pre post : List (Nat × Nat)) (tid hdl : Nat) (E : PyExc)
    (hstate : g.state = .FINISHED)
    (hfin : g.finished = pre ++ (tid, hdl) :: post)
    (herr : taskResult g.tasks hdl = .error E)
    (hexc : E.isException = true)
    (hnis : E ≠ .invalidStateError)
    (hpre : ∀ p ∈ pre, taskOk g.tasks p = true)
    (hpost : ∀ p ∈ post, taskOk g.tasks p = true) :
    g.get_results true
      = (pre.map (entryYield g.tasks) ++ (tid, .exc E) :: post.map (entryYield g.tasks),
         none)
    ∧ g.get_results false = (pre.map (entryYield g.tasks), some E) := by
  have hgoT : getResultsGo g.tasks true ((tid, hdl) :: post)
      = ((tid, .exc E) :: post.map (entryYield g.tasks), none) := by
    have hpost' := getResultsGo_all_ok g.tasks true post hpost
    simp only [getResultsGo]
    rw [herr]
    cases E <;> simp_all [PyExc.isException]
  have hgoF : getResultsGo g.tasks false ((tid, hdl) :: post) = ([], some E) := by
    simp only [getResultsGo]
    rw [herr]
    cases E <;> simp_all [PyExc.isException]
  constructor
  · unfold TGroup.get_results
    rw [if_neg (fun hne => hne hstate), hfin,
      getResultsGo_append_ok g.tasks true pre _ hpre, hgoT]
  · unfold TGroup.get_results
    rw [if_neg (fun hne => hne hstate), hfin,
      getResultsGo_append_ok g.tasks false pre _ hpre, hgoF]
    simp

/-- A concrete `FINISHED` group for the C9 witness: three entries in
settlement order, the middle one raised a `ValueError` with message x. -/
def c9WitnessGroup : TGroup :=
  ⟨[], [], [(0, 0), (1, 1), (2, 2)], .FINISHED,
   [⟨0, .value 1, false, true⟩,
    ⟨1, .error (.valueError "x"), false, true⟩,
    ⟨2, .value 3, false, true⟩]⟩

/-- Witness for C9 on `c9WitnessGroup`. -/
theorem claim_c9_witness :
    TGroup.get_results c9WitnessGroup true
      = ([(0, .val 1), (1, .exc (.valueError "x")), (2, .val 3)], none)
    ∧ TGroup.get_results c9WitnessGroup false
      = ([(0, .val 1)], some (.valueError "x")) :=
  claim_c9_error_item_results c9WitnessGroup [(0, 0)] [(2, 2)] 1 1
    (.valueError "x") rfl rfl rfl rfl (by decide)
    (by decide) (by decide)

/-- Claim C10: for a `TaskGroup` in the `FINISHED` state whose finished list
reaches a cancelled task (every earlier entry completed normally),
`get_results` never captures the cancellation as a data value, whatever the
`return_exceptions` flag: the `except Exception` clause does not catch
`asyncio.CancelledError` (not an `Exception` subclass on Python >= 3.8), so
the iteration yields the earlier successful entries and then propagates
`CancelledError` out of the generator, for `return_exceptions=True` and
`False` alike. -/
theorem claim_c10_cancelled_task_propagates
    (g : TGroup) (b : Bool) (pre rest : List (Nat × Nat)) (tid hdl : Nat)
    (hstate : g.state = .FINISHED)
    (hfin : g.finished = pre ++ (tid, hdl) :: rest)
    (hcan : taskResult g.tasks hdl = .error .cancelledError)
    (hpre : ∀ p ∈ pre, taskOk g.tasks p = true) :
    g.get_results b = (pre.map (entryYield g.tasks), some .cancelledError) := by
  unfold TGroup.get_results
  rw [if_neg (fun hne => hne hstate), hfin,
    getResultsGo_append_ok g.tasks b pre _ hpre]
  simp only [getResultsGo]
  rw [hcan]
  simp [PyExc.isException]

/-- A concrete `FINISHED` group for the C10 witness: entry 0 succeeded,
entry 1 was cancelled. -/
def c10WitnessGroup : TGroup :=
  ⟨[], [], [(0, 0), (1, 1)], .FINISHED,
   [⟨0, .value 1, false, true⟩, ⟨1, .value 9, true, true⟩]⟩

/-- Witness for C10 on `c10WitnessGroup`, with `return_exceptions=True`. -/
theorem claim_c10_witness :
    TGroup.get_results c10WitnessGroup true
      = ([(0, .val 1)], some .cancelledError) :=
  claim_c10_cancelled_task_propagates c10WitnessGroup true [(0, 0)] [] 1 1
    rfl rfl rfl (by decide)
